import Mathlib

/-!
Verification of `vrutkovs/ci-operator` (`cmd/ci-operator/main.go`) against its
natural-language specification.

The program is shallowly embedded: the cluster control plane is modelled as an
environment (`RunEnv`) supplying the response to each create/get call, and the
orchestration functions (`Run`, `Complete`, `writeParameters`,
`createNamespaceCleanupPod`, `admittedRoute`) are translated into pure Lean
functions that return the outcome together with the ordered list of externally
visible effects (`Effect`).  The only unbounded loop in the source (the
namespace create/fetch loop) is embedded with an explicit fuel parameter: a
`none` result means the loop had not terminated within that much fuel.
-/

namespace CiOperator

/-- Modelled from the spec: the steps package's pipeline image stream constant
(`steps.PipelineImageStream`, not in the provided sources); its concrete value
does not influence any claim. -/
def pipelineImageStream : String := "pipeline"

/-- Modelled from the spec: the steps package's stable image stream constant
(`steps.StableImageStream`, not in the provided sources). -/
def stableImageStream : String := "stable"

/-- Modelled from the spec: the steps package's RPM repository route name
(`steps.RPMRepoName`, not in the provided sources). -/
def rpmRepoName : String := "rpm-repo"

/-- Modelled from the spec: an owner reference as attached to the JobSpec
(`meta.OwnerReference`; the program sets APIVersion, Kind, Name, UID and
Controller). -/
structure OwnerReference where
  apiVersion : String
  kind : String
  name : String
  uid : String
  controller : Bool
deriving DecidableEq, Repr

/-- Modelled from the spec: the `steps.JobSpec` type (not in the provided
sources).  Per the spec it carries the job name, a stable content hash, the
target namespace, a base namespace, and an optional owner reference, with
setter operations for namespace, base namespace and owner. -/
structure JobSpec where
  job : String
  hash : String
  ns : String
  baseNamespace : String
  owner : Option OwnerReference
deriving DecidableEq, Repr

/-- Modelled from the spec: `JobSpec.SetNamespace`. -/
def JobSpec.setNamespace (j : JobSpec) (n : String) : JobSpec := { j with ns := n }

/-- Modelled from the spec: `JobSpec.SetBaseNamespace`. -/
def JobSpec.setBaseNamespace (j : JobSpec) (n : String) : JobSpec :=
  { j with baseNamespace := n }

/-- Modelled from the spec: `JobSpec.SetOwner`. -/
def JobSpec.setOwner (j : JobSpec) (o : OwnerReference) : JobSpec :=
  { j with owner := some o }

/-- `ReleaseTagConfiguration` fields used by `writeParameters`. -/
structure ReleaseTagConfiguration where
  name : String
  namePrefix : String
  tag : String
deriving DecidableEq, Repr

/-- The fields of `api.ReleaseBuildConfiguration` that `main.go` reads:
`ReleaseTagConfiguration` (pointer, so optional) and `RpmBuildCommands`
(string, tested for non-emptiness). -/
structure ReleaseBuildConfiguration where
  releaseTagConfiguration : Option ReleaseTagConfiguration
  rpmBuildCommands : String
deriving DecidableEq, Repr

/-- The fields of the `options` struct of `main.go` that the embedded
operations read (`dry`, `writeParams`, `namespace` (here `ns`),
`baseNamespace`, `idleCleanupDuration`, `buildConfig`, `jobSpec`). -/
structure Options where
  dry : Bool
  writeParams : String
  ns : String
  baseNamespace : String
  idleCleanupDuration : Nat
  buildConfig : ReleaseBuildConfiguration
  jobSpec : JobSpec
deriving DecidableEq, Repr

/-- Status fields of the image-stream anchor object that `main.go` reads. -/
structure ImageStream where
  uid : String
  publicDockerImageRepository : String
  dockerImageRepository : String
deriving DecidableEq, Repr

/-- `routeapi.RouteIngressCondition`: the two fields `admittedRoute` reads. -/
structure RouteCondition where
  condType : String
  condStatus : String
deriving DecidableEq, Repr

/-- `routeapi.RouteIngress`: the two fields `admittedRoute` reads. -/
structure RouteIngress where
  host : String
  conditions : List RouteCondition
deriving DecidableEq, Repr

/-- `routeapi.Route`, reduced to `Status.Ingress`. -/
structure Route where
  ingress : List RouteIngress
deriving DecidableEq, Repr

/-- Result of `ProjectRequests().Create` as the program distinguishes it:
success (carrying the created project's phase), `IsAlreadyExists`, or any
other error. -/
inductive CreateNsResult
  | created (phase : String)
  | alreadyExists
  | otherError (msg : String)
deriving DecidableEq, Repr

/-- Result of `Projects().Get` as the program distinguishes it: success
(carrying the phase), `IsNotFound`, or any other error. -/
inductive GetNsResult
  | found (phase : String)
  | notFound
  | otherError (msg : String)
deriving DecidableEq, Repr

/-- Result of the service-account / role-binding / pod creates in
`createNamespaceCleanupPod`: the program treats `IsAlreadyExists` as success
and every other error as fatal. -/
inductive CreateResult
  | created
  | alreadyExists
  | otherError (msg : String)
deriving DecidableEq, Repr

/-- Result of `ImageStreams().Create` as the program distinguishes it. -/
inductive CreateIsResult
  | created (is : ImageStream)
  | alreadyExists
  | otherError (msg : String)
deriving DecidableEq, Repr

/-- Result of one `Routes().Get` poll: a route object or a Get error. -/
inductive RouteObs
  | route (r : Route)
  | getError (msg : String)
deriving DecidableEq, Repr

/-- The cluster environment: the response the control plane gives to each call
the program makes.  Indexed calls (`createNs`, `getNs`, `routeAt`) receive the
iteration number of the loop that issues them.  `getIs` models
`ImageStreams().Get` at its documented boundary: `none` means the get failed
(the program discards the error), `some` carries the fetched object.
`fromConfig` and `stepsResult` are the outcomes of the external
`steps.FromConfig` and `steps.Run` collaborators. -/
structure RunEnv where
  createNs : Nat → CreateNsResult
  getNs : Nat → GetNsResult
  createSA : CreateResult
  createRB : CreateResult
  createPod : CreateResult
  createIs : CreateIsResult
  getIs : Option ImageStream
  routeAt : Nat → RouteObs
  fromConfig : Except String Unit
  stepsResult : Bool → Except String Unit

/-- The externally visible actions of one run, in program order.  The
`set*` constructors mark the JobSpec mutations; `create*` constructors are the
cluster mutations; `get*` are cluster reads; `runSteps` is the hand-off to the
graph executor; `printParams`/`writeFile` are the two parameter sinks. -/
inductive Effect
  | setNamespace (ns : String)
  | setBaseNamespace (ns : String)
  | setOwner (uid : String)
  | createNamespace (name : String)
  | getNamespace (name : String)
  | sleepSeconds (n : Nat)
  | createServiceAccount (ns : String)
  | createRoleBinding (ns : String)
  | createCleanupPod (ns : String)
  | createImageStream (ns : String)
  | getImageStream (ns : String)
  | runSteps (dry : Bool)
  | getRoute (ns : String) (name : String)
  | printParams (lines : List String)
  | writeFile (path : String) (content : String)
deriving DecidableEq, Repr

/-- Which effects mutate cluster state (namespace, service account, role
binding, cleanup pod, image stream creation). -/
def Effect.isClusterMutation : Effect → Bool
  | .createNamespace _ => true
  | .createServiceAccount _ => true
  | .createRoleBinding _ => true
  | .createCleanupPod _ => true
  | .createImageStream _ => true
  | _ => false

/-- Which effects mutate the JobSpec. -/
def Effect.isJobSpecMutation : Effect → Bool
  | .setNamespace _ => true
  | .setBaseNamespace _ => true
  | .setOwner _ => true
  | _ => false

/-- The namespace create/fetch loop of `Run` (`for { ... }`, main.go lines
130-154), embedded with explicit fuel.  Each iteration: attempt the project
create; a non-already-exists error is fatal; on already-exists fetch the
project, where not-found restarts the loop and any other error is fatal; a
project (created or fetched) in phase `Terminating` causes a 3-second sleep
and a retry; otherwise the loop ends successfully.  The result is the effect
trace plus `none` (fuel exhausted, loop still running) or `some` outcome. -/
def nsLoop (env : RunEnv) (name : String) : Nat → Nat → List Effect × Option (Except String Unit)
  | 0, _ => ([], none)
  | fuel + 1, i =>
    match env.createNs i with
    | .otherError m =>
      ([Effect.createNamespace name], some (.error ("could not set up namespace for test: " ++ m)))
    | .created phase =>
      if phase = "Terminating" then
        let rest := nsLoop env name fuel (i + 1)
        (Effect.createNamespace name :: Effect.sleepSeconds 3 :: rest.1, rest.2)
      else
        ([Effect.createNamespace name], some (.ok ()))
    | .alreadyExists =>
      match env.getNs i with
      | .notFound =>
        let rest := nsLoop env name fuel (i + 1)
        (Effect.createNamespace name :: Effect.getNamespace name :: rest.1, rest.2)
      | .otherError m =>
        ([Effect.createNamespace name, Effect.getNamespace name],
          some (.error ("cannot retrieve test namespace: " ++ m)))
      | .found phase =>
        if phase = "Terminating" then
          let rest := nsLoop env name fuel (i + 1)
          (Effect.createNamespace name :: Effect.getNamespace name ::
            Effect.sleepSeconds 3 :: rest.1, rest.2)
        else
          ([Effect.createNamespace name, Effect.getNamespace name], some (.ok ()))

/-- `strings.Replace(s, old, new, -1)` on character lists (non-overlapping,
left-to-right, scanning resumes after each replacement).  The fuel argument is
only a structural-recursion device: every step consumes at least one subject
character, so fuel equal to the subject length is always enough.  The
empty-pattern insertion case of the Go function is never used by the program
and is modelled as the identity (guarded by `pat ≠ []`). -/
def goReplaceAux (pat rep : List Char) : Nat → List Char → List Char
  | 0, l => l
  | _ + 1, [] => []
  | fuel + 1, c :: cs =>
    if pat ≠ [] ∧ pat.isPrefixOf (c :: cs) then
      rep ++ goReplaceAux pat rep fuel ((c :: cs).drop pat.length)
    else
      c :: goReplaceAux pat rep fuel cs

/-- `strings.Replace(s, pat, rep, -1)`. -/
def goReplace (s pat rep : String) : String :=
  ⟨goReplaceAux pat.data rep.data s.data.length s.data⟩

/-- One character of Go's `%q` escaping, for the printable-ASCII fragment the
program's parameters range over. -/
def goQuoteChar (c : Char) : String :=
  if c = '"' then "\\\""
  else if c = '\\' then "\\\\"
  else if c = '\n' then "\\n"
  else if c = '\t' then "\\t"
  else String.singleton c

/-- Go's `fmt.Sprintf("%q", s)`: the string in double quotes with escapes. -/
def goQuote (s : String) : String :=
  "\"" ++ String.join (s.data.map goQuoteChar) ++ "\""

/-- `strings.SplitN(s, "/", 2)[0]`: the prefix before the first slash. -/
def firstSegment (s : String) : String := (s.splitOn "/").headD s

/-- The registry host computed in `writeParameters`: `"REGISTRY"` unless the
anchor image stream reports a public (preferred) or internal docker image
repository, in which case its first path segment. -/
def registryOf (is? : Option ImageStream) : String :=
  match is? with
  | none => "REGISTRY"
  | some is =>
    if 0 < is.publicDockerImageRepository.length then
      firstSegment is.publicDockerImageRepository
    else if 0 < is.dockerImageRepository.length then
      firstSegment is.dockerImageRepository
    else "REGISTRY"

/-- The `IMAGE_FORMAT='...'` parameter line of `writeParameters`, including
the backslash and single-quote escaping applied to the format string. -/
def imageFormatLine (tc : ReleaseTagConfiguration) (registry ns : String) : String :=
  let format :=
    if 0 < tc.name.length then
      registry ++ "/" ++ ns ++ "/" ++ (tc.namePrefix ++ stableImageStream) ++ ":" ++
        "$\x7bcomponent\x7d"
    else
      registry ++ "/" ++ ns ++ "/" ++ (tc.namePrefix ++ "$\x7bcomponent\x7d") ++ ":" ++ tc.tag
  "IMAGE_FORMAT=\x27" ++ goReplace (goReplace format "\\" "\\\\") "\x27" "\\\x27" ++ "\x27"

/-- Poll interval of the RPM-repo route wait (`wait.PollImmediate`'s first
argument, `time.Second`), in seconds. -/
def routePollIntervalSeconds : Nat := 1

/-- Total timeout of the RPM-repo route wait (`wait.PollImmediate`'s second
argument, `time.Minute`), in seconds. -/
def routePollTimeoutSeconds : Nat := 60

/-- Number of condition evaluations `wait.PollImmediate(time.Second,
time.Minute, ...)` performs: one immediate evaluation plus one per interval
tick until the timeout fires. -/
def routeMaxAttempts : Nat := routePollTimeoutSeconds / routePollIntervalSeconds + 1

/-- The message of `wait.ErrWaitTimeout`, returned when the poll times out. -/
def waitTimeoutMessage : String := "timed out waiting for the condition"

/-- The `admittedRoute` helper: scan the route's ingresses in status order,
skip those with an empty host, and return the first host carrying a condition
of type `RouteAdmitted` with status `True`. -/
def admittedRouteLoop : List RouteIngress → String × Bool
  | [] => ("", false)
  | i :: rest =>
    if i.host.length = 0 then admittedRouteLoop rest
    else if i.conditions.any (fun c => c.condType == "Admitted" && c.condStatus == "True") then
      (i.host, true)
    else admittedRouteLoop rest

/-- `admittedRoute` (main.go lines 210-222). -/
def admittedRoute (r : Route) : String × Bool := admittedRouteLoop r.ingress

/-- The poll body of the RPM-repo route wait (`wait.PollImmediate` in
`writeParameters`): each attempt gets the route; a get error aborts the poll
with that error; an admitted route ends the poll with its host; otherwise the
next attempt runs, until the attempt budget is exhausted (the timeout). -/
def pollRouteAux (env : RunEnv) (ns : String) : Nat → Nat → List Effect × Except String String
  | 0, _ => ([], .error waitTimeoutMessage)
  | fuel + 1, k =>
    match env.routeAt k with
    | .getError m => ([Effect.getRoute ns rpmRepoName], .error m)
    | .route r =>
      match admittedRoute r with
      | (host, true) => ([Effect.getRoute ns rpmRepoName], .ok host)
      | (_, false) =>
        let rest := pollRouteAux env ns fuel (k + 1)
        (Effect.getRoute ns rpmRepoName :: rest.1, rest.2)

/-- The unconditional parameter lines of `writeParameters` (main.go lines
246-267): `JOB_NAME` and `NAMESPACE` always, plus `IMAGE_FORMAT` when a
release tag configuration is present. -/
def baseParams (o : Options) (is? : Option ImageStream) : List String :=
  let params := ["JOB_NAME=" ++ goQuote o.jobSpec.job, "NAMESPACE=" ++ goQuote o.ns]
  match o.buildConfig.releaseTagConfiguration with
  | some tc => params ++ [imageFormatLine tc (registryOf is?) o.ns]
  | none => params

/-- The parameter-resolution part of `writeParameters` (main.go lines
246-291): the base parameter lines, and — when RPM build commands are
configured — the `RPM_REPO` value, which in dry-run mode is the empty
placeholder and otherwise comes from polling the RPM-repo route for an
admitted host. -/
def resolveParams (o : Options) (env : RunEnv) (is? : Option ImageStream) :
    List Effect × Except String (List String) :=
  let params := baseParams o is?
  if 0 < o.buildConfig.rpmBuildCommands.length then
    if o.dry then ([], .ok (params ++ ["RPM_REPO=\"\""]))
    else
      match pollRouteAux env o.ns routeMaxAttempts 0 with
      | (es, .error m) => (es, .error m)
      | (es, .ok host) => (es, .ok (params ++ ["RPM_REPO=" ++ goQuote host]))
  else ([], .ok params)

/-- `writeParameters` (main.go lines 244-302): resolve the parameters; on
failure return the error (producing no file); on success print the lines in
dry-run mode, otherwise write them to the output path with a trailing
newline. -/
def writeParameters (o : Options) (env : RunEnv) (path : String) (is? : Option ImageStream) :
    List Effect × Except String Unit :=
  match resolveParams o env is? with
  | (es, .error m) => (es, .error m)
  | (es, .ok params) =>
    if o.dry then (es ++ [Effect.printParams params], .ok ())
    else
      (es ++ [Effect.writeFile path (String.intercalate "\n" (params ++ [""]))], .ok ())

/-- `createNamespaceCleanupPod` (main.go lines 306-401): create the `cleanup`
service account, role binding and `cleanup-when-idle` pod, treating
already-exists as success and any other error as fatal. -/
def createNamespaceCleanupPod (env : RunEnv) (ns : String) : List Effect × Except String Unit :=
  match env.createSA with
  | .otherError m =>
    ([Effect.createServiceAccount ns],
      .error ("could not create service account for cleanup: " ++ m))
  | _ =>
    match env.createRB with
    | .otherError m =>
      ([Effect.createServiceAccount ns, Effect.createRoleBinding ns],
        .error ("could not create role binding for cleanup: " ++ m))
    | _ =>
      match env.createPod with
      | .otherError m =>
        ([Effect.createServiceAccount ns, Effect.createRoleBinding ns,
          Effect.createCleanupPod ns],
          .error ("could not create pod for cleanup: " ++ m))
      | _ =>
        ([Effect.createServiceAccount ns, Effect.createRoleBinding ns,
          Effect.createCleanupPod ns], .ok ())

/-- The image-stream anchor provisioning of `Run` (main.go lines 167-179):
create the pipeline image stream; a non-already-exists error is fatal; on
already-exists fetch it, discarding any fetch error (so the anchor may simply
be absent). -/
def provisionAnchor (env : RunEnv) (ns : String) : List Effect × Except String (Option ImageStream) :=
  match env.createIs with
  | .created is => ([Effect.createImageStream ns], .ok (some is))
  | .alreadyExists => ([Effect.createImageStream ns, Effect.getImageStream ns], .ok env.getIs)
  | .otherError m =>
    ([Effect.createImageStream ns],
      .error ("could not set up pipeline imagestream for test: " ++ m))

/-- The JobSpec after the tail of `Run`: when an anchor object was obtained
(main.go lines 180-189) the owner reference with the anchor's UID and
`Controller: true` is attached; otherwise the JobSpec is left unchanged. -/
def runTailJs (o : Options) (is? : Option ImageStream) : JobSpec :=
  match is? with
  | some is =>
    o.jobSpec.setOwner
      { apiVersion := "image.openshift.io/v1", kind := "ImageStream",
        name := pipelineImageStream, uid := is.uid, controller := true }
  | none => o.jobSpec

/-- The effects and outcome of the tail of `Run` (main.go lines 180-207):
attach the owner reference when an anchor object was obtained, generate the
steps from the configuration, run the graph, and when an output path is
configured write the parameters. -/
def runTailCore (o : Options) (env : RunEnv) (is? : Option ImageStream) :
    List Effect × Except String Unit :=
  let ownEffs : List Effect :=
    match is? with
    | some is => [Effect.setOwner is.uid]
    | none => []
  match env.fromConfig with
  | .error m => (ownEffs, .error ("failed to generate steps from config: " ++ m))
  | .ok _ =>
    match env.stepsResult o.dry with
    | .error m => (ownEffs ++ [Effect.runSteps o.dry], .error m)
    | .ok _ =>
      if 0 < o.writeParams.length then
        match writeParameters o env o.writeParams is? with
        | (wEffs, .error m) =>
          (ownEffs ++ [Effect.runSteps o.dry] ++ wEffs,
            .error ("failed to write parameters: " ++ m))
        | (wEffs, .ok _) =>
          (ownEffs ++ [Effect.runSteps o.dry] ++ wEffs, .ok ())
      else (ownEffs ++ [Effect.runSteps o.dry], .ok ())

/-- The tail of `Run`: effects, outcome and final JobSpec. -/
def runTail (o : Options) (env : RunEnv) (is? : Option ImageStream) :
    List Effect × Except String Unit × JobSpec :=
  ((runTailCore o env is?).1, (runTailCore o env is?).2, runTailJs o is?)

/-- `Run` (main.go lines 117-208), as an effect trace: when dry-run is set the
whole provisioning block is skipped (no anchor, `is` stays absent); otherwise
the namespace loop, the optional cleanup pod and the anchor provisioning run
in order, each fatal error aborting.  `none` means the namespace loop had not
terminated within the given fuel. -/
def runTrace (o : Options) (env : RunEnv) (fuel : Nat) :
    Option (List Effect × Except String Unit × JobSpec) :=
  if o.dry then some (runTail o env none)
  else
    match nsLoop env o.ns fuel 0 with
    | (_, none) => none
    | (nsEffs, some (.error m)) => some (nsEffs, .error m, o.jobSpec)
    | (nsEffs, some (.ok _)) =>
      let cleanup :=
        if 0 < o.idleCleanupDuration then createNamespaceCleanupPod env o.ns
        else ([], .ok ())
      match cleanup with
      | (cEffs, .error m) => some (nsEffs ++ cEffs, .error m, o.jobSpec)
      | (cEffs, .ok _) =>
        match provisionAnchor env o.jobSpec.ns with
        | (aEffs, .error m) => some (nsEffs ++ cEffs ++ aEffs, .error m, o.jobSpec)
        | (aEffs, .ok is?) =>
          let t := runTail o env is?
          some (nsEffs ++ cEffs ++ aEffs ++ t.1, t.2.1, t.2.2)

/-- `Complete` (main.go lines 66-93), restricted to the namespace and JobSpec
handling: default the namespace option to `ci-op-\x7bid\x7d`, substitute every
occurrence of the `\x7bid\x7d` placeholder with the JobSpec hash, and attach
the namespace and base namespace to the JobSpec. -/
def complete (o : Options) (spec0 : JobSpec) : Options :=
  let ns1 := if o.ns.length = 0 then "ci-op-\x7bid\x7d" else o.ns
  let ns2 := goReplace ns1 "\x7bid\x7d" spec0.hash
  { o with ns := ns2,
           jobSpec := (spec0.setNamespace ns2).setBaseNamespace o.baseNamespace }

/-- `main`'s `Complete`-then-`Run` sequencing, with the two JobSpec mutations
performed by `Complete` prepended to the effect trace. -/
def mainTrace (o : Options) (spec0 : JobSpec) (env : RunEnv) (fuel : Nat) :
    Option (List Effect × Except String Unit × JobSpec) :=
  let o2 := complete o spec0
  match runTrace o2 env fuel with
  | none => none
  | some (effs, r, js) =>
    some (Effect.setNamespace o2.ns :: Effect.setBaseNamespace o.baseNamespace :: effs, r, js)

/-- One pod as observed by the cleanup watchdog's `oc get pods` template:
name, restart policy and phase. -/
structure PodObs where
  name : String
  restartPolicy : String
  phase : String
deriving DecidableEq, Repr

/-- The watchdog's template predicate: a pod counts as active when it is not
the watchdog itself (`cleanup-when-idle`), has restart policy `Never`, and is
in phase `Pending`, `Running` or `Unknown`. -/
def podActive (p : PodObs) : Bool :=
  (p.name != "cleanup-when-idle") && (p.restartPolicy == "Never") &&
    (p.phase == "Pending" || p.phase == "Running" || p.phase == "Unknown")

/-- Whether a watchdog observation window sees any active pod. -/
def anyActive (ps : List PodObs) : Bool := ps.any podActive

/-- The idle-decision loop of the cleanup watchdog script (main.go lines
363-392), over a finite list of observation windows: an active window resets
the counter to zero and waits; an inactive window with counter below one
increments the counter (the script's counter takes the string values `"0"` and
`"01"`, whose arithmetic values in the `-lt` test are 0 and 1, so it is
modelled as a `Nat`) and waits; an inactive window with counter at least one
deletes the project.  Returns the index of the window at which the deletion
fires, or `none` if the observations end first. -/
def watchdogDeletesAt : List (List PodObs) → Nat → Nat → Option Nat
  | [], _, _ => none
  | w :: rest, count, pos =>
    if anyActive w then watchdogDeletesAt rest 0 (pos + 1)
    else if count < 1 then watchdogDeletesAt rest (count + 1) (pos + 1)
    else some pos

/-- The ingress predicate of the spec reading of `admittedRoute`: non-empty
host carrying a condition of type `RouteAdmitted` with status `True`. -/
def admittedIngress (i : RouteIngress) : Bool :=
  (i.host.length != 0) &&
    i.conditions.any (fun c => c.condType == "Admitted" && c.condStatus == "True")

/-- Whether an effect is the hand-off to the graph executor. -/
def Effect.isRunSteps : Effect → Bool
  | .runSteps _ => true
  | _ => false

/-- Effects that either mutate the JobSpec or start the graph executor; used
to state the mutation discipline of one run. -/
def jsMutOrRun (e : Effect) : Bool := e.isJobSpecMutation || e.isRunSteps

/-- The shape the resolved parameter lines always have: `JOB_NAME` and
`NAMESPACE` first, then `IMAGE_FORMAT` exactly when a release tag
configuration is present, then `RPM_REPO` exactly when RPM build commands are
configured (the empty placeholder in dry-run mode, a quoted host
otherwise). -/
def paramLinesShape (o : Options) (is? : Option ImageStream) (lines : List String) : Prop :=
  ∃ imgPart rpmPart,
    lines = ["JOB_NAME=" ++ goQuote o.jobSpec.job, "NAMESPACE=" ++ goQuote o.ns] ++
      imgPart ++ rpmPart ∧
    (match o.buildConfig.releaseTagConfiguration with
      | some tc => imgPart = [imageFormatLine tc (registryOf is?) o.ns]
      | none => imgPart = []) ∧
    (if 0 < o.buildConfig.rpmBuildCommands.length then
      (o.dry = true ∧ rpmPart = ["RPM_REPO=\"\""]) ∨
        (o.dry = false ∧ ∃ h, rpmPart = ["RPM_REPO=" ++ goQuote h])
      else rpmPart = [])

/-- A benign cluster environment for concrete runs: every create succeeds, the
namespace comes up `Active`, the anchor create returns UID `u1`, steps
succeed, and route gets fail. -/
def baseEnv : RunEnv := {
  createNs := fun _ => .created "Active"
  getNs := fun _ => .notFound
  createSA := .created
  createRB := .created
  createPod := .created
  createIs := .created ⟨"u1", "", ""⟩
  getIs := none
  routeAt := fun _ => .getError "x"
  fromConfig := .ok ()
  stepsResult := fun _ => .ok () }

/-- A cluster that reports the namespace as `Terminating` on every create. -/
def envAllTerminating : RunEnv := { baseEnv with createNs := fun _ => .created "Terminating" }

/-- A cluster whose namespace create races with an existing `Active` one. -/
def envAlready : RunEnv :=
  { baseEnv with createNs := fun _ => .alreadyExists, getNs := fun _ => .found "Active" }

/-- A cluster whose namespace fetch fails with a non-not-found error. -/
def envGetErr : RunEnv :=
  { baseEnv with createNs := fun _ => .alreadyExists, getNs := fun _ => .otherError "boom" }

/-- A cluster where the anchor already exists and its fetch also fails. -/
def envAnchor : RunEnv := { baseEnv with createIs := .alreadyExists, getIs := none }

/-- A route with an admitted host on its second ingress. -/
def rWok : Route :=
  ⟨[⟨"", []⟩, ⟨"h.example.com", [⟨"Admitted", "True"⟩]⟩]⟩

/-- A cluster whose RPM route is admitted from the third poll onward. -/
def envRouteOk : RunEnv :=
  { baseEnv with routeAt := fun j => if j < 2 then .route ⟨[]⟩ else .route rWok }

/-- A cluster whose RPM route never becomes admitted. -/
def envNever : RunEnv := { baseEnv with routeAt := fun _ => .route ⟨[]⟩ }

/-- A JobSpec as resolved from the environment, with job name `j` and
content hash `h`. -/
def spec0C : JobSpec := { job := "j", hash := "h", ns := "", baseNamespace := "", owner := none }

/-- Options of a plain non-dry run with no explicit namespace. -/
def oC : Options := {
  dry := false, writeParams := "", ns := "", baseNamespace := "stable",
  idleCleanupDuration := 0,
  buildConfig := { releaseTagConfiguration := none, rpmBuildCommands := "" },
  jobSpec := { job := "", hash := "", ns := "", baseNamespace := "", owner := none } }

/-- `oC` with the namespace fixed to `n` (for direct `runTrace` runs). -/
def oErr : Options := { oC with ns := "n" }

/-- Options of a dry run that configures RPM commands and an output path. -/
def oDry : Options := {
  dry := true, writeParams := "p", ns := "nsd", baseNamespace := "stable",
  idleCleanupDuration := 0,
  buildConfig := { releaseTagConfiguration := none, rpmBuildCommands := "make rpms" },
  jobSpec := { job := "j", hash := "h", ns := "nsd", baseNamespace := "stable", owner := none } }

/-- Options of a non-dry run that configures RPM commands and an output
path. -/
def oRpm : Options := {
  dry := false, writeParams := "out", ns := "n", baseNamespace := "stable",
  idleCleanupDuration := 0,
  buildConfig := { releaseTagConfiguration := none, rpmBuildCommands := "make rpms" },
  jobSpec := { job := "j", hash := "h", ns := "n", baseNamespace := "stable", owner := none } }

/-- The effect trace of the run `mainTrace oC spec0C baseEnv`. -/
def effsC : List Effect :=
  [.setNamespace "ci-op-h", .setBaseNamespace "stable", .createNamespace "ci-op-h",
    .createImageStream "ci-op-h", .setOwner "u1", .runSteps false]

/-- The final JobSpec of the run `mainTrace oC spec0C baseEnv`. -/
def jsC : JobSpec :=
  ⟨"j", "h", "ci-op-h", "stable",
    some ⟨"image.openshift.io/v1", "ImageStream", pipelineImageStream, "u1", true⟩⟩

/-- Watchdog observations: one window with an active run-once pod, then two
empty windows. -/
def obsW : List (List PodObs) := [[⟨"p", "Never", "Running"⟩], [], []]

/-- A route whose first ingress has an empty host and whose second carries an
admitted host. -/
def routeW : Route :=
  ⟨[⟨"", [⟨"Admitted", "True"⟩]⟩, ⟨"host1", [⟨"Admitted", "True"⟩]⟩]⟩

/-- The ingress scan of `admittedRoute` equals a first-match search with the
admitted-ingress predicate. -/
theorem admittedRouteLoop_eq_find (l : List RouteIngress) :
    admittedRouteLoop l =
      (match l.find? admittedIngress with
        | some i => (i.host, true)
        | none => ("", false)) := by
  induction l with
  | nil => rfl
  | cons i rest ih =>
    by_cases h0 : i.host.length = 0
    · have hp : admittedIngress i = false := by
        simp [admittedIngress, h0]
      simp [admittedRouteLoop, h0, List.find?_cons, hp, ih]
    · by_cases hc : i.conditions.any (fun c => c.condType == "Admitted" && c.condStatus == "True")
      · have hp : admittedIngress i = true := by
          simp [admittedIngress, h0, hc]
        simp [admittedRouteLoop, h0, hc, List.find?_cons, hp]
      · have hp : admittedIngress i = false := by
          simp only [admittedIngress]
          simp [hc]
        simp [admittedRouteLoop, h0, hc, List.find?_cons, hp, ih]

theorem goReplace_ciop (h : String) :
    goReplace "ci-op-\x7bid\x7d" "\x7bid\x7d" h = "ci-op-" ++ h := by
  obtain ⟨l⟩ := h
  show String.mk _ = String.mk _
  show String.mk ('c' :: 'i' :: '-' :: 'o' :: 'p' :: '-' :: (l ++ [])) = _
  rw [List.append_nil]
  rfl

theorem goReplace_two (h : String) :
    goReplace "a\x7bid\x7db\x7bid\x7d" "\x7bid\x7d" h = "a" ++ h ++ "b" ++ h := by
  obtain ⟨l⟩ := h
  show String.mk ('a' :: (l ++ 'b' :: (l ++ []))) = String.mk _
  rw [List.append_nil]
  show _ = String.mk ((('a' :: l) ++ ['b']) ++ l)
  simp

theorem watchdog_aux (obs : List (List PodObs)) :
    ∀ (count pos k : Nat), watchdogDeletesAt obs count pos = some k →
    (1 ≤ count ∧ k = pos ∧ ∃ w, obs.head? = some w ∧ anyActive w = false) ∨
    (∃ i w1 w2, k = pos + i + 1 ∧ obs.get? i = some w1 ∧ anyActive w1 = false ∧
      obs.get? (i + 1) = some w2 ∧ anyActive w2 = false) := by
  induction obs with
  | nil => intro count pos k h; simp [watchdogDeletesAt] at h
  | cons w rest ih =>
    intro count pos k h
    by_cases ha : anyActive w
    · rw [watchdogDeletesAt, if_pos ha] at h
      rcases ih 0 (pos + 1) k h with ⟨hc, _⟩ | ⟨i, w1, w2, hk, h1, h2, h3, h4⟩
      · omega
      · exact Or.inr ⟨i + 1, w1, w2, by omega, by simpa using h1, h2, by simpa using h3, h4⟩
    · rw [watchdogDeletesAt, if_neg ha] at h
      by_cases hc : count < 1
      · rw [if_pos hc] at h
        rcases ih (count + 1) (pos + 1) k h with ⟨_, hk, w2, hh, hw2⟩ | ⟨i, w1, w2, hk, h1, h2, h3, h4⟩
        · refine Or.inr ⟨0, w, w2, by omega, rfl, by simpa using ha, ?_, hw2⟩
          cases rest with
          | nil => simp at hh
          | cons x xs => simpa using hh
        · exact Or.inr ⟨i + 1, w1, w2, by omega, by simpa using h1, h2, by simpa using h3, h4⟩
      · rw [if_neg hc] at h
        have hk : k = pos := by simpa using h.symm
        exact Or.inl ⟨by omega, hk, w, rfl, by simpa using ha⟩

theorem nsLoop_no_runSteps (env : RunEnv) (name : String) :
    ∀ (fuel i : Nat) (d : Bool), Effect.runSteps d ∉ (nsLoop env name fuel i).1 := by
  intro fuel
  induction fuel with
  | zero => intro i d; simp [nsLoop]
  | succ n ih =>
    intro i d
    match hc : env.createNs i with
    | .otherError m => simp [nsLoop, hc]
    | .created phase =>
      by_cases hp : phase = "Terminating"
      · simp [nsLoop, hc, hp]
        exact ih (i + 1) d
      · simp [nsLoop, hc, hp]
    | .alreadyExists =>
      match hg : env.getNs i with
      | .notFound =>
        simp [nsLoop, hc, hg]
        exact ih (i + 1) d
      | .otherError m => simp [nsLoop, hc, hg]
      | .found phase =>
        by_cases hp : phase = "Terminating"
        · simp [nsLoop, hc, hg, hp]
          exact ih (i + 1) d
        · simp [nsLoop, hc, hg, hp]

theorem nsLoop_sleeps_fixed (env : RunEnv) (name : String) :
    ∀ (fuel i s : Nat), Effect.sleepSeconds s ∈ (nsLoop env name fuel i).1 → s = 3 := by
  intro fuel
  induction fuel with
  | zero => intro i s h; simp [nsLoop] at h
  | succ n ih =>
    intro i s h
    match hc : env.createNs i with
    | .otherError m => simp [nsLoop, hc] at h
    | .created phase =>
      by_cases hp : phase = "Terminating"
      · simp [nsLoop, hc, hp] at h
        rcases h with h | h
        · omega
        · exact ih (i + 1) s h
      · simp [nsLoop, hc, hp] at h
    | .alreadyExists =>
      match hg : env.getNs i with
      | .notFound =>
        simp [nsLoop, hc, hg] at h
        exact ih (i + 1) s h
      | .otherError m => simp [nsLoop, hc, hg] at h
      | .found phase =>
        by_cases hp : phase = "Terminating"
        · simp [nsLoop, hc, hg, hp] at h
          rcases h with h | h
          · omega
          · exact ih (i + 1) s h
        · simp [nsLoop, hc, hg, hp] at h

theorem nsLoop_allTerminating_never_done :
    ∀ (fuel i : Nat), (nsLoop envAllTerminating "ns" fuel i).2 = none := by
  intro fuel
  induction fuel with
  | zero => intro i; rfl
  | succ n ih =>
    intro i
    have hc : envAllTerminating.createNs i = .created "Terminating" := rfl
    simp [nsLoop, hc]
    exact ih (i + 1)

theorem runTrace_nsError (o : Options) (env : RunEnv) (fuel : Nat) (m : String)
    (hdry : o.dry = false) (h : (nsLoop env o.ns fuel 0).2 = some (.error m)) :
    runTrace o env fuel = some ((nsLoop env o.ns fuel 0).1, .error m, o.jobSpec) := by
  rw [runTrace, if_neg (by simp [hdry])]
  have heta : nsLoop env o.ns fuel 0 = ((nsLoop env o.ns fuel 0).1, (nsLoop env o.ns fuel 0).2) := rfl
  rw [heta, h]

theorem runTrace_success_shape (o : Options) (env : RunEnv) (fuel : Nat)
    (is? : Option ImageStream)
    (hdry : o.dry = false) (hidle : o.idleCleanupDuration = 0)
    (hns : (nsLoop env o.ns fuel 0).2 = some (.ok ()))
    (ha : (provisionAnchor env o.jobSpec.ns).2 = .ok is?) :
    runTrace o env fuel =
      some ((nsLoop env o.ns fuel 0).1 ++ (provisionAnchor env o.jobSpec.ns).1 ++
          (runTailCore o env is?).1,
        (runTailCore o env is?).2, runTailJs o is?) := by
  rw [runTrace, if_neg (by simp [hdry])]
  have heta : nsLoop env o.ns fuel 0 = ((nsLoop env o.ns fuel 0).1, (nsLoop env o.ns fuel 0).2) := rfl
  rw [heta, hns]
  have heta2 : provisionAnchor env o.jobSpec.ns =
      ((provisionAnchor env o.jobSpec.ns).1, (provisionAnchor env o.jobSpec.ns).2) := rfl
  simp only [hidle]
  rw [if_neg (by omega)]
  simp only []
  rw [heta2, ha]
  simp [runTail]

/-- C10: `admittedRoute` returns `(host, true)` exactly when some ingress has
a non-empty host and carries a condition of type `RouteAdmitted` with status
`True`; the host returned is that of the first such ingress in status order,
and otherwise the result is `("", false)`. -/
theorem admittedRoute_spec (r : Route) :
    admittedRoute r =
      (match r.ingress.find? admittedIngress with
        | some i => (i.host, true)
        | none => ("", false)) ∧
    ((admittedRoute r).2 = true ↔ ∃ i ∈ r.ingress, admittedIngress i = true) := by
  refine ⟨admittedRouteLoop_eq_find r.ingress, ?_⟩
  rw [admittedRoute, admittedRouteLoop_eq_find]
  match hf : r.ingress.find? admittedIngress with
  | some i =>
    simp only [hf]
    constructor
    · intro _
      exact ⟨i, List.mem_of_find?_eq_some hf, List.find?_some hf⟩
    · intro _; trivial
  | none =>
    simp only [hf]
    constructor
    · intro hfalse; exact absurd hfalse (by simp)
    · rintro ⟨i, hmem, hp⟩
      have := List.find?_eq_none.mp hf i hmem
      simp [hp] at this

/-- C7: the ephemeral namespace name is derived deterministically from the
job identity: with no explicit namespace option it is `ci-op-` followed by
the JobSpec content hash, and every occurrence of the `\x7bid\x7d` placeholder
in the namespace option is replaced by that hash before the namespace (and
base namespace) is attached to the JobSpec. -/
theorem complete_namespace_spec (o : Options) (spec0 : JobSpec) :
    (complete o spec0).jobSpec.ns = (complete o spec0).ns ∧
    (complete o spec0).jobSpec.baseNamespace = o.baseNamespace ∧
    (complete o spec0).ns =
      goReplace (if o.ns.length = 0 then "ci-op-\x7bid\x7d" else o.ns) "\x7bid\x7d" spec0.hash ∧
    (o.ns.length = 0 → (complete o spec0).ns = "ci-op-" ++ spec0.hash) ∧
    goReplace "a\x7bid\x7db\x7bid\x7d" "\x7bid\x7d" spec0.hash =
      "a" ++ spec0.hash ++ "b" ++ spec0.hash := by
  refine ⟨rfl, rfl, rfl, ?_, goReplace_two spec0.hash⟩
  intro h0
  simp only [complete, h0, if_pos rfl]
  exact goReplace_ciop spec0.hash

/-- C2: the idle-cleanup watchdog never deletes the namespace after observing
only one idle window: starting from counter zero a deletion fires only at a
window that together with the immediately preceding window saw no active
run-once pod; any window with an active pod resets the counter; one empty
window alone never deletes; and "active" is exactly the script template (a
pod other than `cleanup-when-idle` with restart policy `Never` in phase
`Pending`, `Running` or `Unknown`). -/
theorem watchdog_two_consecutive :
    (∀ (obs : List (List PodObs)) (k : Nat), watchdogDeletesAt obs 0 0 = some k →
      ∃ i w1 w2, k = i + 1 ∧ obs.get? i = some w1 ∧ anyActive w1 = false ∧
        obs.get? (i + 1) = some w2 ∧ anyActive w2 = false) ∧
    (∀ (w : List PodObs) (rest : List (List PodObs)) (count pos : Nat), anyActive w = true →
      watchdogDeletesAt (w :: rest) count pos = watchdogDeletesAt rest 0 (pos + 1)) ∧
    (∀ w : List PodObs, anyActive w = false → watchdogDeletesAt [w] 0 0 = none) ∧
    (∀ ps : List PodObs, anyActive ps = false ↔
      ∀ p ∈ ps, ¬(p.name ≠ "cleanup-when-idle" ∧ p.restartPolicy = "Never" ∧
        (p.phase = "Pending" ∨ p.phase = "Running" ∨ p.phase = "Unknown"))) := by
  refine ⟨?_, ?_, ?_, ?_⟩
  · intro obs k h
    rcases watchdog_aux obs 0 0 k h with ⟨hc, _⟩ | ⟨i, w1, w2, hk, h1, h2, h3, h4⟩
    · omega
    · exact ⟨i, w1, w2, by omega, h1, h2, h3, h4⟩
  · intro w rest count pos ha
    rw [watchdogDeletesAt, if_pos (by simp [ha])]
  · intro w hw
    rw [watchdogDeletesAt, if_neg (by simp [hw]), if_pos (by omega)]
    rfl
  · intro ps
    constructor
    · intro h p hmem
      have := List.any_eq_false.mp (by simpa [anyActive] using h) p hmem
      simp only [podActive] at this
      intro ⟨h1, h2, h3⟩
      apply this
      simp [h1, h2]
      rcases h3 with h3 | h3 | h3 <;> simp [h3]
    · intro h
      simp only [anyActive]
      rw [List.any_eq_false]
      intro p hmem
      have := h p hmem
      simp only [podActive]
      intro hfalse
      apply this
      simp only [Bool.and_eq_true, Bool.or_eq_true, bne_iff_ne, beq_iff_eq] at hfalse
      exact ⟨hfalse.1.1, hfalse.1.2, by tauto⟩

theorem runTailCore_runSteps_mem (o : Options) (env : RunEnv) (is? : Option ImageStream)
    (hf : env.fromConfig = .ok ()) :
    Effect.runSteps o.dry ∈ (runTailCore o env is?).1 := by
  rw [runTailCore.eq_def, hf]
  match env.stepsResult o.dry with
  | .error m => simp
  | .ok _ =>
    by_cases hw : 0 < o.writeParams.length
    · simp only [if_pos hw]
      match writeParameters o env o.writeParams is? with
      | (wEffs, .error m) => simp
      | (wEffs, .ok _) => simp
    · simp only [if_neg hw]
      simp

/-- C1: namespace provisioning is idempotent and phase-aware: when the create
returns already-exists, the existing namespace is fetched instead of failing
and a non-terminating phase completes provisioning without retrying; a
fetched `Terminating` phase retries the whole create/fetch cycle after the
fixed 3-second delay; a not-found fetch restarts the create attempt; and any
other fetch error aborts the run before any Step executes. -/
theorem nsProvision_spec (env : RunEnv) (name : String) (fuel i : Nat) :
    (∀ p, env.createNs i = .alreadyExists → env.getNs i = .found p → p ≠ "Terminating" →
      nsLoop env name (fuel + 1) i =
        ([Effect.createNamespace name, Effect.getNamespace name], some (.ok ()))) ∧
    (env.createNs i = .alreadyExists → env.getNs i = .found "Terminating" →
      (nsLoop env name (fuel + 1) i).1 =
        Effect.createNamespace name :: Effect.getNamespace name :: Effect.sleepSeconds 3 ::
          (nsLoop env name fuel (i + 1)).1 ∧
      (nsLoop env name (fuel + 1) i).2 = (nsLoop env name fuel (i + 1)).2) ∧
    (env.createNs i = .alreadyExists → env.getNs i = .notFound →
      (nsLoop env name (fuel + 1) i).1 =
        Effect.createNamespace name :: Effect.getNamespace name :: (nsLoop env name fuel (i + 1)).1 ∧
      (nsLoop env name (fuel + 1) i).2 = (nsLoop env name fuel (i + 1)).2) ∧
    (∀ m, env.createNs i = .alreadyExists → env.getNs i = .otherError m →
      nsLoop env name (fuel + 1) i =
        ([Effect.createNamespace name, Effect.getNamespace name],
          some (.error ("cannot retrieve test namespace: " ++ m)))) ∧
    (∀ (o : Options) (m : String), o.dry = false →
      (nsLoop env o.ns fuel 0).2 = some (.error m) →
      ∃ effs, runTrace o env fuel = some (effs, .error m, o.jobSpec) ∧
        ∀ d, Effect.runSteps d ∉ effs) := by
  refine ⟨?_, ?_, ?_, ?_, ?_⟩
  · intro p hc hg hp
    simp [nsLoop, hc, hg, hp]
  · intro hc hg
    constructor <;> simp [nsLoop, hc, hg]
  · intro hc hg
    constructor <;> simp [nsLoop, hc, hg]
  · intro m hc hg
    simp [nsLoop, hc, hg]
  · intro o m hdry h
    exact ⟨(nsLoop env o.ns fuel 0).1, runTrace_nsError o env fuel m hdry h,
      fun d => nsLoop_no_runSteps env o.ns fuel 0 d⟩

/-- C6: anchor provisioning degrades gracefully: when the image-stream create
returns already-exists and the subsequent get also fails, provisioning
succeeds with no anchor and the run proceeds to the graph executor with the
JobSpec unchanged (no owner reference); whenever an anchor object is obtained
by create or by get, an owner reference carrying the anchor UID with
`Controller` set to true is attached to the JobSpec. -/
theorem anchor_best_effort (env : RunEnv) (ns : String) :
    (env.createIs = .alreadyExists → env.getIs = none →
      provisionAnchor env ns =
        ([Effect.createImageStream ns, Effect.getImageStream ns], .ok none)) ∧
    (∀ o : Options, (runTail o env none).2.2 = o.jobSpec) ∧
    (∀ (o : Options) (is : ImageStream),
      (runTail o env (some is)).2.2 =
        o.jobSpec.setOwner
          { apiVersion := "image.openshift.io/v1", kind := "ImageStream",
            name := pipelineImageStream, uid := is.uid, controller := true } ∧
      Effect.setOwner is.uid ∈ (runTail o env (some is)).1) ∧
    (∀ is, env.createIs = .created is → (provisionAnchor env ns).2 = .ok (some is)) ∧
    (∀ is, env.createIs = .alreadyExists → env.getIs = some is →
      (provisionAnchor env ns).2 = .ok (some is)) ∧
    (∀ (o : Options) (fuel : Nat), o.dry = false → o.idleCleanupDuration = 0 →
      (nsLoop env o.ns fuel 0).2 = some (.ok ()) →
      env.createIs = .alreadyExists → env.getIs = none → env.fromConfig = .ok () →
      ∃ effs r js, runTrace o env fuel = some (effs, r, js) ∧ js = o.jobSpec ∧
        Effect.runSteps o.dry ∈ effs) := by
  refine ⟨?_, ?_, ?_, ?_, ?_, ?_⟩
  · intro hc hg
    simp [provisionAnchor, hc, hg]
  · intro o
    rfl
  · intro o is
    refine ⟨rfl, ?_⟩
    show Effect.setOwner is.uid ∈ (runTailCore o env (some is)).1
    rw [runTailCore.eq_def]
    match env.fromConfig with
    | .error m => simp
    | .ok _ =>
      match env.stepsResult o.dry with
      | .error m => simp
      | .ok _ =>
        by_cases hw : 0 < o.writeParams.length
        · simp only [if_pos hw]
          match writeParameters o env o.writeParams (some is) with
          | (wEffs, .error m) => simp
          | (wEffs, .ok _) => simp
        · simp only [if_neg hw]
          simp
  · intro is hc
    simp [provisionAnchor, hc]
  · intro is hc hg
    simp [provisionAnchor, hc, hg]
  · intro o fuel hdry hidle hns hc hg hf
    have ha : (provisionAnchor env o.jobSpec.ns).2 = .ok none := by
      simp [provisionAnchor, hc, hg]
    refine ⟨_, _, _, runTrace_success_shape o env fuel none hdry hidle hns ha, rfl, ?_⟩
    exact List.mem_append_right _ (runTailCore_runSteps_mem o env none hf)

theorem writeParameters_dry (o : Options) (env : RunEnv) (path : String)
    (is? : Option ImageStream) (hdry : o.dry = true) :
    ∃ params, resolveParams o env is? = ([], .ok params) ∧
      writeParameters o env path is? = ([Effect.printParams params], .ok ()) ∧
      (0 < o.buildConfig.rpmBuildCommands.length → "RPM_REPO=\"\"" ∈ params) := by
  by_cases hrpm : 0 < o.buildConfig.rpmBuildCommands.length
  · have hres : resolveParams o env is? = ([], .ok (baseParams o is? ++ ["RPM_REPO=\"\""])) := by
      rw [resolveParams]
      simp [hrpm, hdry]
    refine ⟨_, hres, ?_, ?_⟩
    · rw [writeParameters, hres]
      simp [hdry]
    · intro _
      exact List.mem_append_right _ (by simp)
  · have hres : resolveParams o env is? = ([], .ok (baseParams o is?)) := by
      rw [resolveParams]
      simp only [if_neg hrpm]
    refine ⟨_, hres, ?_, fun h => absurd h hrpm⟩
    rw [writeParameters, hres]
    simp [hdry]

theorem runTailCore_dry_effects (o : Options) (env : RunEnv) (hdry : o.dry = true) :
    (runTailCore o env none).1 = [] ∨
    (runTailCore o env none).1 = [Effect.runSteps true] ∨
    ∃ lines, (runTailCore o env none).1 = [Effect.runSteps true, Effect.printParams lines] ∧
      resolveParams o env none = ([], .ok lines) := by
  rw [runTailCore.eq_def]
  match env.fromConfig with
  | .error m => exact Or.inl rfl
  | .ok _ =>
    match env.stepsResult o.dry with
    | .error m => exact Or.inr (Or.inl (by simp [hdry]))
    | .ok _ =>
      by_cases hw : 0 < o.writeParams.length
      · simp only [if_pos hw]
        obtain ⟨params, hres, hwp, _⟩ := writeParameters_dry o env o.writeParams none hdry
        rw [hwp]
        exact Or.inr (Or.inr ⟨params, by simp [hdry], hres⟩)
      · simp only [if_neg hw]
        exact Or.inr (Or.inl (by simp [hdry]))

theorem runTailCore_dry_success (o : Options) (env : RunEnv) (hdry : o.dry = true)
    (hf : env.fromConfig = .ok ()) (hs : env.stepsResult true = .ok ())
    (hw : 0 < o.writeParams.length) :
    ∃ lines, (runTailCore o env none).1 = [Effect.runSteps true, Effect.printParams lines] ∧
      (0 < o.buildConfig.rpmBuildCommands.length → "RPM_REPO=\"\"" ∈ lines) := by
  rw [runTailCore.eq_def, hf]
  rw [hdry, hs]
  simp only [if_pos hw]
  obtain ⟨params, _, hwp, hrpm⟩ := writeParameters_dry o env o.writeParams none hdry
  rw [hwp]
  exact ⟨params, by simp [hdry], hrpm⟩

/-- C3: with the dry-run flag set, `Run` performs zero cluster mutations: the
trace contains no create effects, no route poll and no file write, and on a
successful export the parameter lines — with `RPM_REPO` replaced by the empty
placeholder when RPM commands are configured — are printed to the log instead
of written. -/
theorem dry_run_no_mutations (o : Options) (env : RunEnv) (fuel : Nat) (hdry : o.dry = true) :
    ∃ effs r js, runTrace o env fuel = some (effs, r, js) ∧
      (∀ e ∈ effs, e.isClusterMutation = false) ∧
      (∀ n nm, Effect.getRoute n nm ∉ effs) ∧
      (∀ p c, Effect.writeFile p c ∉ effs) ∧
      (0 < o.buildConfig.rpmBuildCommands.length → 0 < o.writeParams.length →
        env.fromConfig = .ok () → env.stepsResult true = .ok () →
        ∃ lines, Effect.printParams lines ∈ effs ∧ "RPM_REPO=\"\"" ∈ lines) := by
  refine ⟨(runTailCore o env none).1, (runTailCore o env none).2, runTailJs o none, ?_, ?_, ?_, ?_, ?_⟩
  · rw [runTrace, if_pos hdry]
    rfl
  · intro e he
    rcases runTailCore_dry_effects o env hdry with h | h | ⟨lines, h, _⟩ <;> rw [h] at he
    · simp at he
    · simp at he
      rw [he]; rfl
    · simp at he
      rcases he with he | he <;> rw [he] <;> rfl
  · intro n nm
    rcases runTailCore_dry_effects o env hdry with h | h | ⟨lines, h, _⟩ <;> rw [h] <;> simp
  · intro p c
    rcases runTailCore_dry_effects o env hdry with h | h | ⟨lines, h, _⟩ <;> rw [h] <;> simp
  · intro hrpm hw hf hs
    obtain ⟨lines, heff, hmem⟩ := runTailCore_dry_success o env hdry hf hs hw
    exact ⟨lines, by rw [heff]; simp, hmem hrpm⟩

theorem pollRouteAux_effects (env : RunEnv) (ns : String) :
    ∀ (fuel k : Nat) (e : Effect), e ∈ (pollRouteAux env ns fuel k).1 →
      e = Effect.getRoute ns rpmRepoName := by
  intro fuel
  induction fuel with
  | zero => intro k e h; simp [pollRouteAux] at h
  | succ n ih =>
    intro k e h
    rw [pollRouteAux] at h
    match hr : env.routeAt k with
    | .getError m =>
      rw [hr] at h
      simpa using h
    | .route r =>
      rw [hr] at h
      dsimp only at h
      match ha : admittedRoute r with
      | (host, true) =>
        rw [ha] at h
        simpa using h
      | (host, false) =>
        rw [ha] at h
        simp at h
        rcases h with h | h
        · exact h
        · exact ih (k + 1) e h

theorem pollRouteAux_success (env : RunEnv) (ns : String) :
    ∀ (k fuel start : Nat) (r : Route) (h : String), k < fuel →
      (∀ j, j < k → ∃ rj, env.routeAt (start + j) = .route rj ∧ (admittedRoute rj).2 = false) →
      env.routeAt (start + k) = .route r → admittedRoute r = (h, true) →
      pollRouteAux env ns fuel start =
        (List.replicate (k + 1) (Effect.getRoute ns rpmRepoName), .ok h) := by
  intro k
  induction k with
  | zero =>
    intro fuel start r h hk _ hr ha
    match fuel, hk with
    | n + 1, _ =>
      rw [pollRouteAux]
      rw [show start + 0 = start from rfl] at hr
      rw [hr]
      dsimp only
      rw [ha]
      rfl
  | succ k ih =>
    intro fuel start r h hk hpre hr ha
    match fuel, hk with
    | n + 1, hk =>
      obtain ⟨r0, hr0, hr0na⟩ := hpre 0 (by omega)
      rw [pollRouteAux]
      rw [show start + 0 = start from rfl] at hr0
      rw [hr0]
      dsimp only
      have heta : admittedRoute r0 = ((admittedRoute r0).1, (admittedRoute r0).2) := rfl
      rw [heta, hr0na]
      have hrec := ih n (start + 1) r h (by omega)
        (fun j hj => by
          obtain ⟨rj, h1, h2⟩ := hpre (j + 1) (by omega)
          refine ⟨rj, ?_, h2⟩
          rwa [show start + 1 + j = start + (j + 1) by omega])
        (by rwa [show start + 1 + k = start + (k + 1) by omega]) ha
      rw [hrec]
      simp [List.replicate_succ]

theorem pollRouteAux_timeout (env : RunEnv) (ns : String) :
    ∀ (fuel start : Nat),
      (∀ j, j < fuel → ∃ rj, env.routeAt (start + j) = .route rj ∧ (admittedRoute rj).2 = false) →
      pollRouteAux env ns fuel start =
        (List.replicate fuel (Effect.getRoute ns rpmRepoName), .error waitTimeoutMessage) := by
  intro fuel
  induction fuel with
  | zero => intro start _; simp [pollRouteAux]
  | succ n ih =>
    intro start hpre
    obtain ⟨r0, hr0, hr0na⟩ := hpre 0 (by omega)
    rw [pollRouteAux]
    rw [show start + 0 = start from rfl] at hr0
    rw [hr0]
    dsimp only
    have heta : admittedRoute r0 = ((admittedRoute r0).1, (admittedRoute r0).2) := rfl
    rw [heta, hr0na]
    have hrec := ih (start + 1) (fun j hj => by
      obtain ⟨rj, h1, h2⟩ := hpre (j + 1) (by omega)
      refine ⟨rj, ?_, h2⟩
      rwa [show start + 1 + j = start + (j + 1) by omega])
    rw [hrec]
    simp [List.replicate_succ]

theorem resolveParams_poll (o : Options) (env : RunEnv) (is? : Option ImageStream)
    (hdry : o.dry = false) (hrpm : 0 < o.buildConfig.rpmBuildCommands.length) :
    (∀ es h, pollRouteAux env o.ns routeMaxAttempts 0 = (es, .ok h) →
      resolveParams o env is? = (es, .ok (baseParams o is? ++ ["RPM_REPO=" ++ goQuote h]))) ∧
    (∀ es m, pollRouteAux env o.ns routeMaxAttempts 0 = (es, .error m) →
      resolveParams o env is? = (es, .error m)) := by
  constructor
  · intro es h hp
    rw [resolveParams]
    simp only [if_pos hrpm, hdry]
    rw [hp]
    simp
  · intro es m hp
    rw [resolveParams]
    simp only [if_pos hrpm, hdry]
    rw [hp]
    simp

/-- C5: with RPM build commands configured and dry-run disabled, parameter
export polls the RPM-repo route at a 1-second interval up to a 1-minute
timeout (61 condition evaluations); it succeeds, recording `RPM_REPO`, as
soon as a poll observes an admitted host, and when no poll within the window
does, the export fails with the wait timeout error — and the whole run fails
with it — even though graph execution already succeeded. -/
theorem rpm_route_poll_spec (o : Options) (env : RunEnv) (path : String)
    (is? : Option ImageStream)
    (hdry : o.dry = false) (hrpm : 0 < o.buildConfig.rpmBuildCommands.length) :
    (∀ (k : Nat) (r : Route) (h : String), k < routeMaxAttempts →
      (∀ j, j < k → ∃ rj, env.routeAt j = .route rj ∧ (admittedRoute rj).2 = false) →
      env.routeAt k = .route r → admittedRoute r = (h, true) →
      resolveParams o env is? =
        (List.replicate (k + 1) (Effect.getRoute o.ns rpmRepoName),
          .ok (baseParams o is? ++ ["RPM_REPO=" ++ goQuote h])) ∧
      (writeParameters o env path is?).2 = .ok ()) ∧
    ((∀ j, j < routeMaxAttempts → ∃ rj, env.routeAt j = .route rj ∧ (admittedRoute rj).2 = false) →
      writeParameters o env path is? =
        (List.replicate routeMaxAttempts (Effect.getRoute o.ns rpmRepoName),
          .error waitTimeoutMessage) ∧
      (∀ p c, Effect.writeFile p c ∉ (writeParameters o env path is?).1)) ∧
    (∀ (fuel : Nat), o.idleCleanupDuration = 0 → o.writeParams = path → 0 < path.length →
      (nsLoop env o.ns fuel 0).2 = some (.ok ()) →
      (provisionAnchor env o.jobSpec.ns).2 = .ok is? →
      env.fromConfig = .ok () → env.stepsResult false = .ok () →
      (∀ j, j < routeMaxAttempts → ∃ rj, env.routeAt j = .route rj ∧ (admittedRoute rj).2 = false) →
      ∃ effs js, runTrace o env fuel =
          some (effs, .error ("failed to write parameters: " ++ waitTimeoutMessage), js) ∧
        Effect.runSteps false ∈ effs) ∧
    routePollIntervalSeconds = 1 ∧ routePollTimeoutSeconds = 60 := by
  have hshift : ∀ j : Nat, (0 : Nat) + j = j := by omega
  refine ⟨?_, ?_, ?_, rfl, rfl⟩
  · intro k r h hk hpre hr ha
    have hp := pollRouteAux_success env o.ns k routeMaxAttempts 0 r h hk
      (fun j hj => by rw [hshift j]; exact hpre j hj) (by rw [hshift k]; exact hr) ha
    have hres := (resolveParams_poll o env is? hdry hrpm).1 _ h hp
    refine ⟨hres, ?_⟩
    rw [writeParameters, hres]
    simp [hdry]
  · intro hnever
    have hp := pollRouteAux_timeout env o.ns routeMaxAttempts 0
      (fun j hj => by rw [hshift j]; exact hnever j hj)
    have hres := (resolveParams_poll o env is? hdry hrpm).2 _ _ hp
    have hwp : writeParameters o env path is? =
        (List.replicate routeMaxAttempts (Effect.getRoute o.ns rpmRepoName),
          .error waitTimeoutMessage) := by
      rw [writeParameters, hres]
    refine ⟨hwp, ?_⟩
    intro p c
    rw [hwp]
    simp
  · intro fuel hidle hpath hlen hns hanchor hf hs hnever
    have hp := pollRouteAux_timeout env o.ns routeMaxAttempts 0
      (fun j hj => by rw [hshift j]; exact hnever j hj)
    have hres := (resolveParams_poll o env is? hdry hrpm).2 _ _ hp
    have hwp : writeParameters o env o.writeParams is? =
        (List.replicate routeMaxAttempts (Effect.getRoute o.ns rpmRepoName),
          .error waitTimeoutMessage) := by
      rw [hpath, writeParameters, hres]
    have hwlen : 0 < o.writeParams.length := by rw [hpath]; exact hlen
    have hcore : runTailCore o env is? =
        ((match is? with
          | some is => [Effect.setOwner is.uid]
          | none => []) ++ [Effect.runSteps false] ++
            List.replicate routeMaxAttempts (Effect.getRoute o.ns rpmRepoName),
          .error ("failed to write parameters: " ++ waitTimeoutMessage)) := by
      rw [runTailCore.eq_def, hf, hdry, hs]
      dsimp only
      rw [if_pos hwlen, hwp]
      cases is? <;> rfl
    have hshape := runTrace_success_shape o env fuel is? hdry hidle hns hanchor
    rw [hcore] at hshape
    refine ⟨_, _, hshape, ?_⟩
    apply List.mem_append_right
    cases is? <;> simp

theorem baseParams_shape (o : Options) (is? : Option ImageStream) :
    ∃ imgPart,
      baseParams o is? =
        ["JOB_NAME=" ++ goQuote o.jobSpec.job, "NAMESPACE=" ++ goQuote o.ns] ++ imgPart ∧
      (match o.buildConfig.releaseTagConfiguration with
        | some tc => imgPart = [imageFormatLine tc (registryOf is?) o.ns]
        | none => imgPart = []) := by
  rw [baseParams.eq_def]
  match o.buildConfig.releaseTagConfiguration with
  | some tc => exact ⟨[imageFormatLine tc (registryOf is?) o.ns], by simp, rfl⟩
  | none => exact ⟨[], by simp, rfl⟩

theorem resolveParams_effects (o : Options) (env : RunEnv) (is? : Option ImageStream)
    (es : List Effect) (r : Except String (List String))
    (hres : resolveParams o env is? = (es, r)) :
    ∀ e ∈ es, e = Effect.getRoute o.ns rpmRepoName := by
  rw [resolveParams] at hres
  by_cases hrpm : 0 < o.buildConfig.rpmBuildCommands.length
  · rw [if_pos hrpm] at hres
    by_cases hdry : o.dry = true
    · rw [hdry] at hres
      simp only [if_pos rfl] at hres
      have h1 := congrArg Prod.fst hres
      dsimp at h1
      rw [← h1]
      intro e he
      simp at he
    · rw [if_neg hdry] at hres
      match hp : pollRouteAux env o.ns routeMaxAttempts 0 with
      | (pes, .error m) =>
        rw [hp] at hres
        dsimp only at hres
        have h1 := congrArg Prod.fst hres
        dsimp at h1
        rw [← h1]
        intro e he
        exact pollRouteAux_effects env o.ns routeMaxAttempts 0 e (by rw [hp]; exact he)
      | (pes, .ok host) =>
        rw [hp] at hres
        dsimp only at hres
        have h1 := congrArg Prod.fst hres
        dsimp at h1
        rw [← h1]
        intro e he
        exact pollRouteAux_effects env o.ns routeMaxAttempts 0 e (by rw [hp]; exact he)
  · rw [if_neg hrpm] at hres
    have h1 := congrArg Prod.fst hres
    dsimp at h1
    rw [← h1]
    intro e he
    simp at he

theorem resolveParams_ok_shape (o : Options) (env : RunEnv) (is? : Option ImageStream)
    (es : List Effect) (lines : List String)
    (hres : resolveParams o env is? = (es, .ok lines)) :
    paramLinesShape o is? lines := by
  obtain ⟨imgPart, hbase, himg⟩ := baseParams_shape o is?
  rw [resolveParams] at hres
  by_cases hrpm : 0 < o.buildConfig.rpmBuildCommands.length
  · rw [if_pos hrpm] at hres
    by_cases hdry : o.dry = true
    · rw [hdry] at hres
      simp only [if_pos rfl] at hres
      have h2 := congrArg Prod.snd hres
      dsimp at h2
      have hlines : lines = baseParams o is? ++ ["RPM_REPO=\"\""] :=
        (Except.ok.inj h2).symm
      refine ⟨imgPart, ["RPM_REPO=\"\""], ?_, himg, ?_⟩
      · rw [hlines, hbase]
      · rw [if_pos hrpm]
        exact Or.inl ⟨hdry, rfl⟩
    · rw [if_neg hdry] at hres
      match hp : pollRouteAux env o.ns routeMaxAttempts 0 with
      | (pes, .error m) =>
        rw [hp] at hres
        dsimp only at hres
        have h2 := congrArg Prod.snd hres
        dsimp at h2
        exact absurd h2 (by simp)
      | (pes, .ok host) =>
        rw [hp] at hres
        dsimp only at hres
        have h2 := congrArg Prod.snd hres
        dsimp at h2
        have hlines : lines = baseParams o is? ++ ["RPM_REPO=" ++ goQuote host] :=
          (Except.ok.inj h2).symm
        refine ⟨imgPart, ["RPM_REPO=" ++ goQuote host], ?_, himg, ?_⟩
        · rw [hlines, hbase]
        · rw [if_pos hrpm]
          exact Or.inr ⟨by simpa using hdry, host, rfl⟩
  · rw [if_neg hrpm] at hres
    have h2 := congrArg Prod.snd hres
    dsimp at h2
    have hlines : lines = baseParams o is? :=
      (Except.ok.inj h2).symm
    refine ⟨imgPart, [], ?_, himg, ?_⟩
    · rw [hlines, hbase, List.append_nil]
    · rw [if_neg hrpm]

theorem tickWrap (y : String) :
    "IMAGE_FORMAT=\x27" ++ y ++ "\x27" = "IMAGE_FORMAT" ++ "=" ++ ("\x27" ++ y ++ "\x27") := by
  obtain ⟨l⟩ := y
  show String.mk _ = String.mk _
  simp

theorem imageFormatLine_key (tc : ReleaseTagConfiguration) (registry ns : String) :
    ∃ v, imageFormatLine tc registry ns = "IMAGE_FORMAT" ++ "=" ++ v := by
  rw [imageFormatLine.eq_def]
  dsimp only
  exact ⟨_, tickWrap _⟩

/-- C8: the parameter file is written only when every resolution succeeded: a
failed resolution (including the route-poll timeout) produces no file and no
printed output; on success with dry-run disabled exactly one file is written
containing the newline-joined lines plus a trailing newline; in dry-run mode
the same lines are printed instead; the lines always consist of `JOB_NAME`
and `NAMESPACE`, plus `IMAGE_FORMAT` and `RPM_REPO` exactly when the
configuration calls for them, and every line is a `KEY=value` entry. -/
theorem writeParameters_spec (o : Options) (env : RunEnv) (path : String)
    (is? : Option ImageStream) :
    (∀ es m, writeParameters o env path is? = (es, .error m) →
      (∀ p c, Effect.writeFile p c ∉ es) ∧ (∀ lines, Effect.printParams lines ∉ es)) ∧
    (o.dry = false → ∀ es, writeParameters o env path is? = (es, .ok ()) →
      ∃ routeEffs lines,
        es = routeEffs ++ [Effect.writeFile path (String.intercalate "\n" (lines ++ [""]))] ∧
        (∀ e ∈ routeEffs, e = Effect.getRoute o.ns rpmRepoName) ∧
        resolveParams o env is? = (routeEffs, .ok lines) ∧ paramLinesShape o is? lines) ∧
    (o.dry = true → ∀ es, writeParameters o env path is? = (es, .ok ()) →
      ∃ lines, es = [Effect.printParams lines] ∧ paramLinesShape o is? lines) ∧
    (∀ es lines, resolveParams o env is? = (es, .ok lines) →
      ∀ line ∈ lines, ∃ k v, line = k ++ "=" ++ v ∧
        k ∈ (["JOB_NAME", "NAMESPACE", "IMAGE_FORMAT", "RPM_REPO"] : List String)) := by
  refine ⟨?_, ?_, ?_, ?_⟩
  · intro es m h
    rw [writeParameters] at h
    match hres : resolveParams o env is? with
    | (res, .error m0) =>
      rw [hres] at h
      dsimp only at h
      have h1 := congrArg Prod.fst h
      dsimp at h1
      rw [← h1]
      constructor
      · intro p c hmem
        have := resolveParams_effects o env is? res (.error m0) hres _ hmem
        simp at this
      · intro lines hmem
        have := resolveParams_effects o env is? res (.error m0) hres _ hmem
        simp at this
    | (res, .ok params) =>
      rw [hres] at h
      dsimp only at h
      by_cases hdry : o.dry = true
      · rw [hdry] at h
        simp only [if_pos rfl] at h
        have h2 := congrArg Prod.snd h
        simp at h2
      · rw [if_neg hdry] at h
        have h2 := congrArg Prod.snd h
        simp at h2
  · intro hdry es h
    rw [writeParameters] at h
    match hres : resolveParams o env is? with
    | (res, .error m0) =>
      rw [hres] at h
      dsimp only at h
      have h2 := congrArg Prod.snd h
      simp at h2
    | (res, .ok params) =>
      rw [hres] at h
      dsimp only at h
      rw [hdry] at h
      simp only [Bool.false_eq_true, if_neg (by simp : ¬False)] at h
      have h1 := congrArg Prod.fst h
      dsimp at h1
      refine ⟨res, params, h1.symm, ?_, rfl, resolveParams_ok_shape o env is? res params hres⟩
      intro e he
      exact resolveParams_effects o env is? res (.ok params) hres e he
  · intro hdry es h
    obtain ⟨params, hres, hwp, _⟩ := writeParameters_dry o env path is? hdry
    rw [hwp] at h
    have h1 := congrArg Prod.fst h
    dsimp at h1
    exact ⟨params, h1.symm, resolveParams_ok_shape o env is? [] params hres⟩
  · intro es lines hres line hline
    obtain ⟨imgPart, rpmPart, hsplit, himg, hrpm⟩ :=
      resolveParams_ok_shape o env is? es lines hres
    rw [hsplit] at hline
    simp only [List.mem_append, List.mem_cons, List.mem_singleton, List.not_mem_nil] at hline
    rcases hline with ((hl | hl) | hl) | hl
    · exact ⟨"JOB_NAME", goQuote o.jobSpec.job, by rw [hl]; rfl, by simp⟩
    · rcases hl with hl | hl
      · exact ⟨"NAMESPACE", goQuote o.ns, by rw [hl]; rfl, by simp⟩
      · simp at hl
    · match htc : o.buildConfig.releaseTagConfiguration with
      | some tc =>
        rw [htc] at himg
        rw [himg] at hl
        simp at hl
        obtain ⟨v, hv⟩ := imageFormatLine_key tc (registryOf is?) o.ns
        exact ⟨"IMAGE_FORMAT", v, by rw [hl, hv], by simp⟩
      | none =>
        rw [htc] at himg
        rw [himg] at hl
        simp at hl
    · by_cases hr : 0 < o.buildConfig.rpmBuildCommands.length
      · rw [if_pos hr] at hrpm
        rcases hrpm with ⟨_, hp⟩ | ⟨_, hhost, hp⟩
        · rw [hp] at hl
          simp at hl
          exact ⟨"RPM_REPO", "\"\"", by rw [hl]; rfl, by simp⟩
        · rw [hp] at hl
          simp at hl
          exact ⟨"RPM_REPO", goQuote hhost, by rw [hl]; rfl, by simp⟩
      · rw [if_neg hr] at hrpm
        rw [hrpm] at hl
        simp at hl

theorem nsLoop_no_mut (env : RunEnv) (name : String) :
    ∀ (fuel i : Nat) (e : Effect), e ∈ (nsLoop env name fuel i).1 → jsMutOrRun e = false := by
  intro fuel
  induction fuel with
  | zero => intro i e h; simp [nsLoop] at h
  | succ n ih =>
    intro i e h
    match hc : env.createNs i with
    | .otherError m =>
      simp [nsLoop, hc] at h
      rw [h]; rfl
    | .created phase =>
      by_cases hp : phase = "Terminating"
      · simp [nsLoop, hc, hp] at h
        rcases h with h | h | h
        · rw [h]; rfl
        · rw [h]; rfl
        · exact ih (i + 1) e h
      · simp [nsLoop, hc, hp] at h
        rw [h]; rfl
    | .alreadyExists =>
      match hg : env.getNs i with
      | .notFound =>
        simp [nsLoop, hc, hg] at h
        rcases h with h | h | h
        · rw [h]; rfl
        · rw [h]; rfl
        · exact ih (i + 1) e h
      | .otherError m =>
        simp [nsLoop, hc, hg] at h
        rcases h with h | h
        · rw [h]; rfl
        · rw [h]; rfl
      | .found phase =>
        by_cases hp : phase = "Terminating"
        · simp [nsLoop, hc, hg, hp] at h
          rcases h with h | h | h | h
          · rw [h]; rfl
          · rw [h]; rfl
          · rw [h]; rfl
          · exact ih (i + 1) e h
        · simp [nsLoop, hc, hg, hp] at h
          rcases h with h | h
          · rw [h]; rfl
          · rw [h]; rfl

theorem nsLoop_filter (env : RunEnv) (name : String) (fuel i : Nat) :
    ((nsLoop env name fuel i).1).filter jsMutOrRun = [] := by
  rw [List.filter_eq_nil_iff]
  intro e he
  rw [nsLoop_no_mut env name fuel i e he]
  simp

theorem cleanup_filter (env : RunEnv) (d : Nat) (n : String) :
    ((if 0 < d then createNamespaceCleanupPod env n else ([], .ok ())).1).filter jsMutOrRun = [] := by
  by_cases hd : 0 < d
  · rw [if_pos hd, createNamespaceCleanupPod.eq_def]
    match env.createSA with
    | .otherError m => rfl
    | .created =>
      match env.createRB with
      | .otherError m => rfl
      | .created =>
        match env.createPod with
        | .otherError m => rfl
        | .created => rfl
        | .alreadyExists => rfl
      | .alreadyExists =>
        match env.createPod with
        | .otherError m => rfl
        | .created => rfl
        | .alreadyExists => rfl
    | .alreadyExists =>
      match env.createRB with
      | .otherError m => rfl
      | .created =>
        match env.createPod with
        | .otherError m => rfl
        | .created => rfl
        | .alreadyExists => rfl
      | .alreadyExists =>
        match env.createPod with
        | .otherError m => rfl
        | .created => rfl
        | .alreadyExists => rfl
  · rw [if_neg hd]
    rfl

theorem anchor_filter (env : RunEnv) (n : String) :
    ((provisionAnchor env n).1).filter jsMutOrRun = [] := by
  rw [provisionAnchor.eq_def]
  match env.createIs with
  | .created is => rfl
  | .alreadyExists => rfl
  | .otherError m => rfl

theorem writeParameters_filter (o : Options) (env : RunEnv) (path : String)
    (is? : Option ImageStream) :
    ((writeParameters o env path is?).1).filter jsMutOrRun = [] := by
  have hall : ∀ es r, resolveParams o env is? = (es, r) → es.filter jsMutOrRun = [] := by
    intro es r hres
    rw [List.filter_eq_nil_iff]
    intro e he
    rw [resolveParams_effects o env is? es r hres e he]
    simp [jsMutOrRun, Effect.isJobSpecMutation, Effect.isRunSteps]
  rw [writeParameters]
  match hres : resolveParams o env is? with
  | (res, .error m) =>
    dsimp only
    exact hall res (.error m) hres
  | (res, .ok params) =>
    dsimp only
    by_cases hdry : o.dry = true
    · rw [if_pos hdry]
      dsimp only
      rw [List.filter_append, hall res (.ok params) hres]
      rfl
    · rw [if_neg hdry]
      dsimp only
      rw [List.filter_append, hall res (.ok params) hres]
      rfl

theorem runTailCore_filter (o : Options) (env : RunEnv) (is? : Option ImageStream) :
    ((runTailCore o env is?).1).filter jsMutOrRun = [] ∨
    (∃ d, ((runTailCore o env is?).1).filter jsMutOrRun = [Effect.runSteps d]) ∨
    (∃ u, ((runTailCore o env is?).1).filter jsMutOrRun = [Effect.setOwner u]) ∨
    (∃ u d, ((runTailCore o env is?).1).filter jsMutOrRun =
      [Effect.setOwner u, Effect.runSteps d]) := by
  rw [runTailCore.eq_def]
  have hwf := writeParameters_filter o env o.writeParams is?
  match is? with
  | some is =>
    match env.fromConfig with
    | .error m => exact Or.inr (Or.inr (Or.inl ⟨is.uid, rfl⟩))
    | .ok _ =>
      match env.stepsResult o.dry with
      | .error m => exact Or.inr (Or.inr (Or.inr ⟨is.uid, o.dry, rfl⟩))
      | .ok _ =>
        by_cases hw : 0 < o.writeParams.length
        · simp only [if_pos hw]
          match hwp : writeParameters o env o.writeParams (some is) with
          | (wEffs, .error m) =>
            refine Or.inr (Or.inr (Or.inr ⟨is.uid, o.dry, ?_⟩))
            dsimp only
            rw [List.filter_append, List.filter_append]
            rw [hwp] at hwf
            rw [hwf]
            rfl
          | (wEffs, .ok _) =>
            refine Or.inr (Or.inr (Or.inr ⟨is.uid, o.dry, ?_⟩))
            dsimp only
            rw [List.filter_append, List.filter_append]
            rw [hwp] at hwf
            rw [hwf]
            rfl
        · simp only [if_neg hw]
          exact Or.inr (Or.inr (Or.inr ⟨is.uid, o.dry, rfl⟩))
  | none =>
    match env.fromConfig with
    | .error m => exact Or.inl rfl
    | .ok _ =>
      match env.stepsResult o.dry with
      | .error m => exact Or.inr (Or.inl ⟨o.dry, rfl⟩)
      | .ok _ =>
        by_cases hw : 0 < o.writeParams.length
        · simp only [if_pos hw]
          match hwp : writeParameters o env o.writeParams none with
          | (wEffs, .error m) =>
            refine Or.inr (Or.inl ⟨o.dry, ?_⟩)
            dsimp only
            rw [List.filter_append, List.filter_append]
            rw [hwp] at hwf
            rw [hwf]
            rfl
          | (wEffs, .ok _) =>
            refine Or.inr (Or.inl ⟨o.dry, ?_⟩)
            dsimp only
            rw [List.filter_append, List.filter_append]
            rw [hwp] at hwf
            rw [hwf]
            rfl
        · simp only [if_neg hw]
          exact Or.inr (Or.inl ⟨o.dry, rfl⟩)

/-- Every terminating run trace is a mutation-free prefix optionally followed
by the tail of `Run`. -/
theorem runTrace_pre_shape (o : Options) (env : RunEnv) (fuel : Nat)
    (effs : List Effect) (r : Except String Unit) (js : JobSpec)
    (h : runTrace o env fuel = some (effs, r, js)) :
    ∃ pre, pre.filter jsMutOrRun = [] ∧
      (effs = pre ∨ ∃ is?, effs = pre ++ (runTailCore o env is?).1) := by
  rw [runTrace] at h
  by_cases hdry : o.dry = true
  · rw [if_pos hdry] at h
    have h3 := Option.some.inj h
    have h4 := congrArg Prod.fst h3
    dsimp at h4
    exact ⟨[], rfl, Or.inr ⟨none, by rw [← h4]; rfl⟩⟩
  · rw [if_neg hdry] at h
    have heta : nsLoop env o.ns fuel 0 =
        ((nsLoop env o.ns fuel 0).1, (nsLoop env o.ns fuel 0).2) := rfl
    rw [heta] at h
    match hns : (nsLoop env o.ns fuel 0).2 with
    | none =>
      rw [hns] at h
      exact absurd h (by simp)
    | some (.error m) =>
      rw [hns] at h
      dsimp only at h
      have h3 := Option.some.inj h
      have h4 := congrArg Prod.fst h3
      dsimp at h4
      exact ⟨effs, by rw [← h4]; exact nsLoop_filter env o.ns fuel 0, Or.inl rfl⟩
    | some (.ok _) =>
      rw [hns] at h
      dsimp only at h
      set C := (if 0 < o.idleCleanupDuration then createNamespaceCleanupPod env o.ns
        else (([] : List Effect), Except.ok ())) with hC
      have hCf : C.1.filter jsMutOrRun = [] := by
        rw [hC]; exact cleanup_filter env o.idleCleanupDuration o.ns
      rw [show C = (C.1, C.2) from rfl] at h
      match hc2 : C.2 with
      | .error m =>
        rw [hc2] at h
        dsimp only at h
        have h3 := Option.some.inj h
        have h4 := congrArg Prod.fst h3
        dsimp at h4
        refine ⟨effs, ?_, Or.inl rfl⟩
        rw [← h4, List.filter_append, nsLoop_filter env o.ns fuel 0, hCf]
        rfl
      | .ok _ =>
        rw [hc2] at h
        dsimp only at h
        set A := provisionAnchor env o.jobSpec.ns with hA
        have hAf : A.1.filter jsMutOrRun = [] := by
          rw [hA]; exact anchor_filter env o.jobSpec.ns
        rw [show A = (A.1, A.2) from rfl] at h
        match ha2 : A.2 with
        | .error m =>
          rw [ha2] at h
          dsimp only at h
          have h3 := Option.some.inj h
          have h4 := congrArg Prod.fst h3
          dsimp at h4
          refine ⟨effs, ?_, Or.inl rfl⟩
          rw [← h4]
          rw [List.filter_append, List.filter_append, nsLoop_filter env o.ns fuel 0, hCf, hAf]
          rfl
        | .ok is? =>
          rw [ha2] at h
          dsimp only at h
          have h3 := Option.some.inj h
          have h4 := congrArg Prod.fst h3
          dsimp at h4
          refine ⟨(nsLoop env o.ns fuel 0).1 ++ C.1 ++ A.1, ?_, Or.inr ⟨is?, ?_⟩⟩
          · rw [List.filter_append, List.filter_append, nsLoop_filter env o.ns fuel 0, hCf, hAf]
            rfl
          · rw [← h4]
            rfl

/-- C9 amended: the JobSpec is mutated only by the namespace and
base-namespace attachment — which are the first two events of the trace and
hence precede every cluster-object creation — and by at most one
owner-reference attachment, which always precedes the hand-off to the graph
executor; no JobSpec mutation occurs once the graph executor has started, so
the JobSpec is immutable thereafter.  (The claim as stated — both mutations
before any cluster object is created — is refuted by
`jobSpec_premutation_counterexample`: the owner reference can only be
attached after the anchor object exists.) -/
theorem jobSpec_mutation_discipline (o : Options) (spec0 : JobSpec) (env : RunEnv) (fuel : Nat)
    (effs : List Effect) (r : Except String Unit) (js : JobSpec)
    (h : mainTrace o spec0 env fuel = some (effs, r, js)) :
    effs.head? = some (Effect.setNamespace (complete o spec0).ns) ∧
    effs.get? 1 = some (Effect.setBaseNamespace o.baseNamespace) ∧
    ∃ tail, effs.filter jsMutOrRun =
        Effect.setNamespace (complete o spec0).ns ::
          Effect.setBaseNamespace o.baseNamespace :: tail ∧
      (tail = [] ∨ (∃ d, tail = [Effect.runSteps d]) ∨ (∃ u, tail = [Effect.setOwner u]) ∨
        (∃ u d, tail = [Effect.setOwner u, Effect.runSteps d])) := by
  rw [mainTrace] at h
  match hrt : runTrace (complete o spec0) env fuel with
  | none =>
    rw [hrt] at h
    exact absurd h (by simp)
  | some (effs0, r0, js0) =>
    rw [hrt] at h
    dsimp only at h
    have h3 := Option.some.inj h
    have h4 := congrArg Prod.fst h3
    dsimp at h4
    obtain ⟨pre, hpref, hcase⟩ := runTrace_pre_shape (complete o spec0) env fuel effs0 r0 js0 hrt
    have e1 : jsMutOrRun (Effect.setNamespace (complete o spec0).ns) = true := rfl
    have e2 : jsMutOrRun (Effect.setBaseNamespace o.baseNamespace) = true := rfl
    refine ⟨by rw [← h4]; rfl, by rw [← h4]; rfl, ?_⟩
    rcases hcase with hc | ⟨is?, hc⟩
    · refine ⟨[], ?_, Or.inl rfl⟩
      rw [← h4, hc]
      simp [List.filter_cons, e1, e2, hpref]
    · rcases runTailCore_filter (complete o spec0) env is? with h0 | ⟨d, h0⟩ | ⟨u, h0⟩ | ⟨u, d, h0⟩
      · refine ⟨[], ?_, Or.inl rfl⟩
        rw [← h4, hc]
        simp [List.filter_cons, e1, e2, List.filter_append, hpref, h0]
      · refine ⟨[Effect.runSteps d], ?_, Or.inr (Or.inl ⟨d, rfl⟩)⟩
        rw [← h4, hc]
        simp [List.filter_cons, e1, e2, List.filter_append, hpref, h0]
      · refine ⟨[Effect.setOwner u], ?_, Or.inr (Or.inr (Or.inl ⟨u, rfl⟩))⟩
        rw [← h4, hc]
        simp [List.filter_cons, e1, e2, List.filter_append, hpref, h0]
      · refine ⟨[Effect.setOwner u, Effect.runSteps d], ?_,
          Or.inr (Or.inr (Or.inr ⟨u, d, rfl⟩))⟩
        rw [← h4, hc]
        simp [List.filter_cons, e1, e2, List.filter_append, hpref, h0]

/-- C4 counterexample: against a cluster that reports the namespace as
`Terminating` on every create, the create/fetch loop is still running after
120 iterations (six minutes of 3-second backoffs), so the loop is not bounded
by a maximum attempt count or total timeout. -/
theorem ns_backoff_counterexample : (nsLoop envAllTerminating "ns" 120 0).2 = none := rfl

/-- C4 amended: the namespace-terminating backoff is fixed-interval — every
sleep the loop performs is exactly 3 seconds — but unbounded: while the
cluster keeps reporting `Terminating`, the loop has not terminated after any
number of iterations. -/
theorem ns_backoff_fixed_interval_unbounded :
    (∀ (env : RunEnv) (name : String) (fuel i s : Nat),
      Effect.sleepSeconds s ∈ (nsLoop env name fuel i).1 → s = 3) ∧
    (∀ fuel i : Nat, (nsLoop envAllTerminating "ns" fuel i).2 = none) :=
  ⟨fun env name => nsLoop_sleeps_fixed env name, nsLoop_allTerminating_never_done⟩

/-- Witness for the amended C4 at concrete fuel. -/
theorem ns_backoff_fixed_interval_unbounded_witness :
    (nsLoop envAllTerminating "ns" 50 0).2 = none ∧ 3 = 3 :=
  ⟨ns_backoff_fixed_interval_unbounded.2 50 0,
    ns_backoff_fixed_interval_unbounded.1 envAllTerminating "ns" 1 0 3 (by decide)⟩

/-- C9 counterexample: in a concrete successful run the namespace (position
2) and the image-stream anchor (position 3) are created before the owner
reference is attached to the JobSpec (position 4), refuting the claim that
both JobSpec mutations complete before any cluster object is created. -/
theorem jobSpec_premutation_counterexample :
    mainTrace oC spec0C baseEnv 3 = some (effsC, .ok (), jsC) ∧
    ¬ (∀ (i j : Nat) (u : String) (e : Effect), effsC.get? i = some (Effect.setOwner u) →
        effsC.get? j = some e → e.isClusterMutation = true → i < j) := by
  refine ⟨rfl, fun hcl => ?_⟩
  have := hcl 4 3 "u1" (Effect.createImageStream "ci-op-h") rfl rfl rfl
  omega

/-- Witness for C1 at concrete environments. -/
theorem nsProvision_spec_witness :
    nsLoop envAlready "n" 1 0 =
      ([Effect.createNamespace "n", Effect.getNamespace "n"], some (.ok ())) ∧
    nsLoop envGetErr "n" 1 0 =
      ([Effect.createNamespace "n", Effect.getNamespace "n"],
        some (.error "cannot retrieve test namespace: boom")) ∧
    (∃ effs, runTrace oErr envGetErr 1 =
        some (effs, .error "cannot retrieve test namespace: boom", oErr.jobSpec) ∧
      ∀ d, Effect.runSteps d ∉ effs) := by
  refine ⟨?_, ?_, ?_⟩
  · exact (nsProvision_spec envAlready "n" 0 0).1 "Active" rfl rfl (by decide)
  · exact (nsProvision_spec envGetErr "n" 0 0).2.2.2.1 "boom" rfl rfl
  · exact (nsProvision_spec envGetErr "n" 1 0).2.2.2.2 oErr
      "cannot retrieve test namespace: boom" rfl rfl

/-- Witness for C2 at concrete observation windows. -/
theorem watchdog_two_consecutive_witness :
    (∃ i w1 w2, 2 = i + 1 ∧ obsW.get? i = some w1 ∧ anyActive w1 = false ∧
      obsW.get? (i + 1) = some w2 ∧ anyActive w2 = false) ∧
    watchdogDeletesAt [[]] 0 0 = none :=
  ⟨watchdog_two_consecutive.1 obsW 2 rfl, watchdog_two_consecutive.2.2.1 [] rfl⟩

/-- Witness for C3 at a concrete dry run. -/
theorem dry_run_no_mutations_witness :
    ∃ effs r js, runTrace oDry baseEnv 1 = some (effs, r, js) ∧
      (∀ e ∈ effs, e.isClusterMutation = false) ∧
      ∃ lines, Effect.printParams lines ∈ effs ∧ "RPM_REPO=\"\"" ∈ lines := by
  obtain ⟨effs, r, js, h1, h2, _, _, h5⟩ := dry_run_no_mutations oDry baseEnv 1 rfl
  exact ⟨effs, r, js, h1, h2, h5 (by decide) (by decide) rfl rfl⟩

/-- Witness for C5: a route admitted at the third poll succeeds, a route
never admitted times out. -/
theorem rpm_route_poll_spec_witness :
    ((writeParameters oRpm envRouteOk "out" none).2 = .ok () ∧
      resolveParams oRpm envRouteOk none =
        (List.replicate 3 (Effect.getRoute "n" rpmRepoName),
          .ok (baseParams oRpm none ++ ["RPM_REPO=" ++ goQuote "h.example.com"]))) ∧
    writeParameters oRpm envNever "out" none =
      (List.replicate routeMaxAttempts (Effect.getRoute "n" rpmRepoName),
        .error waitTimeoutMessage) := by
  constructor
  · have hok := (rpm_route_poll_spec oRpm envRouteOk "out" none rfl (by decide)).1 2
      rWok "h.example.com" (by decide)
      (fun j hj => ⟨⟨[]⟩, by
        show (if j < 2 then RouteObs.route ⟨[]⟩ else RouteObs.route rWok) =
          RouteObs.route ⟨[]⟩
        rw [if_pos hj], rfl⟩)
      (by decide) (by decide)
    exact ⟨hok.2, hok.1⟩
  · exact ((rpm_route_poll_spec oRpm envNever "out" none rfl (by decide)).2.1
      (fun j hj => ⟨⟨[]⟩, rfl, rfl⟩)).1

/-- Witness for C6 at a concrete environment with a failing anchor get. -/
theorem anchor_best_effort_witness :
    provisionAnchor envAnchor "n" =
      ([Effect.createImageStream "n", Effect.getImageStream "n"], .ok none) ∧
    (∃ effs r js, runTrace oErr envAnchor 1 = some (effs, r, js) ∧ js = oErr.jobSpec ∧
      Effect.runSteps oErr.dry ∈ effs) :=
  ⟨(anchor_best_effort envAnchor "n").1 rfl rfl,
    (anchor_best_effort envAnchor "n").2.2.2.2.2 oErr 1 rfl rfl rfl rfl rfl rfl⟩

/-- Witness for C7 at a concrete empty namespace option. -/
theorem complete_namespace_spec_witness :
    (complete oC spec0C).ns = "ci-op-" ++ "h" :=
  (complete_namespace_spec oC spec0C).2.2.2.1 rfl

/-- Witness for C10 at a concrete route. -/
theorem admittedRoute_spec_witness : admittedRoute routeW = ("host1", true) := by
  rw [(admittedRoute_spec routeW).1]
  rfl

/-- Witness for C8: a dry export prints its lines, a timed-out export writes
no file. -/
theorem writeParameters_spec_witness :
    (∃ lines, (writeParameters oDry baseEnv "p" none).1 = [Effect.printParams lines] ∧
      paramLinesShape oDry none lines) ∧
    (∀ p c, Effect.writeFile p c ∉ (writeParameters oRpm envNever "out" none).1) := by
  refine ⟨(writeParameters_spec oDry baseEnv "p" none).2.2.1 rfl
    (writeParameters oDry baseEnv "p" none).1 rfl, ?_⟩
  exact ((writeParameters_spec oRpm envNever "out" none).1
    (writeParameters oRpm envNever "out" none).1 waitTimeoutMessage rfl).1

/-- Witness for the amended C9 at a concrete run. -/
theorem jobSpec_mutation_discipline_witness :
    effsC.head? = some (Effect.setNamespace (complete oC spec0C).ns) ∧
    ∃ tail, effsC.filter jsMutOrRun =
        Effect.setNamespace (complete oC spec0C).ns ::
          Effect.setBaseNamespace oC.baseNamespace :: tail ∧
      (tail = [] ∨ (∃ d, tail = [Effect.runSteps d]) ∨ (∃ u, tail = [Effect.setOwner u]) ∨
        (∃ u d, tail = [Effect.setOwner u, Effect.runSteps d])) := by
  obtain ⟨h1, _, h3⟩ :=
    jobSpec_mutation_discipline oC spec0C baseEnv 3 effsC (.ok ()) jsC rfl
  exact ⟨h1, h3⟩

end CiOperator
